import Mathlib

/-!
Verification of the codex-sdk-go event-stream and turn-aggregation layer.

This file gives a shallow embedding, in Lean, of the parts of the repository
that decode the CLI's line-delimited JSON output, pump it through the
event stream, and aggregate it into a `Turn`:

* `options.go` / item decoding (`unmarshalThreadItem` and the item types),
* the event type and its custom JSON decoding (`ThreadEvent.UnmarshalJSON`),
* `exec.go`'s `waitFn` closure (the process-await result),
* the background reading loop of `runStreamedInternal` and its final
  error reconciliation,
* `Thread.Run`'s aggregation loop and error selection, and
* `Thread.setID` / `Thread.ID`.

JSON bytes are modelled by a parsed JSON value type (`Json`); a raw payload
(`json.RawMessage` in Go) is modelled by the `Json` value itself.  Go's
`encoding/json` field semantics are modelled per field: an absent or `null`
field leaves the zero value, a present field of the wrong JSON type is a
decode error, and unknown fields are ignored (the object lookup just skips
them).  Modelled objects are assumed to have distinct field names, which is
true of the wire protocol.  Concurrency (context cancellation racing the
reader, channel blocking, `sync.Once` memoisation) is out of the pure model:
the modelled executions are those in which the consumer drains the channel
and the context is never cancelled during reading; the error that the
aggregator's own cancellation produces enters the model as an explicit
`GoError.canceled` input where a claim needs it.
-/

namespace CodexSdk

/-- A parsed JSON value (model of the bytes handed to `json.Unmarshal`). -/
inductive Json where
  | null : Json
  | bool (b : Bool) : Json
  | num (n : Int) : Json
  | str (s : String) : Json
  | arr (elems : List Json) : Json
  | obj (fields : List (String × Json)) : Json

/-- Field lookup in a JSON object (wire-protocol objects have distinct keys). -/
def lookupField : List (String × Json) → String → Option Json
  | [], _ => none
  | (k, v) :: rest, key => if k = key then some v else lookupField rest key

/-- Go `json.Unmarshal` into a struct: the payload must be a JSON object
(`null` is accepted and leaves every field at its zero value). -/
def asObjFields (j : Json) (what : String) : Except String (List (String × Json)) :=
  match j with
  | .obj fs => .ok fs
  | .null => .ok []
  | _ => .error ("cannot unmarshal non-object into " ++ what)

/-- Go decoding of a `string` struct field: absent or `null` leaves `""`,
a JSON string is taken verbatim, anything else is a decode error. -/
def strField (fs : List (String × Json)) (key : String) : Except String String :=
  match lookupField fs key with
  | none => .ok ""
  | some (.str s) => .ok s
  | some .null => .ok ""
  | some _ => .error ("cannot unmarshal field " ++ key ++ " into string")

/-- Go decoding of an `int` struct field. -/
def intField (fs : List (String × Json)) (key : String) : Except String Int :=
  match lookupField fs key with
  | none => .ok 0
  | some (.num n) => .ok n
  | some .null => .ok 0
  | some _ => .error ("cannot unmarshal field " ++ key ++ " into int")

/-- Go decoding of a `*int` struct field: absent or `null` is `nil`. -/
def optIntField (fs : List (String × Json)) (key : String) : Except String (Option Int) :=
  match lookupField fs key with
  | none => .ok none
  | some (.num n) => .ok (some n)
  | some .null => .ok none
  | some _ => .error ("cannot unmarshal field " ++ key ++ " into *int")

/-- Go decoding of a `bool` struct field. -/
def boolField (fs : List (String × Json)) (key : String) : Except String Bool :=
  match lookupField fs key with
  | none => .ok false
  | some (.bool b) => .ok b
  | some .null => .ok false
  | some _ => .error ("cannot unmarshal field " ++ key ++ " into bool")

/-- Go decoding of a slice-typed struct field: absent or `null` is the nil
slice, an array yields its elements, anything else is a decode error. -/
def arrField (fs : List (String × Json)) (key : String) : Except String (List Json) :=
  match lookupField fs key with
  | none => .ok []
  | some .null => .ok []
  | some (.arr xs) => .ok xs
  | some _ => .error ("cannot unmarshal field " ++ key ++ " into slice")

/-- Go decoding of a `json.RawMessage` struct field: the raw payload is kept
verbatim when the field is present (even when it is `null`). -/
def rawField (fs : List (String × Json)) (key : String) : Option Json :=
  lookupField fs key

/-- Go decoding of a pointer-to-struct field: absent or `null` is `nil`,
otherwise the given decoder runs on the payload. -/
def optStructField {α : Type} (fs : List (String × Json)) (key : String)
    (dec : Json → Except String α) : Except String (Option α) :=
  match lookupField fs key with
  | none => .ok none
  | some .null => .ok none
  | some j => (dec j).map some

/-! ### Item model (`options.go`) -/

/-- `ItemAgentMessage` in `options.go`. -/
def ItemAgentMessage : String := "agent_message"
/-- `ItemReasoning` in `options.go`. -/
def ItemReasoning : String := "reasoning"
/-- `ItemCommandExecution` in `options.go`. -/
def ItemCommandExecution : String := "command_execution"
/-- `ItemFileChange` in `options.go`. -/
def ItemFileChange : String := "file_change"
/-- `ItemMcpToolCall` in `options.go`. -/
def ItemMcpToolCall : String := "mcp_tool_call"
/-- `ItemWebSearch` in `options.go`. -/
def ItemWebSearch : String := "web_search"
/-- `ItemTodoList` in `options.go`. -/
def ItemTodoList : String := "todo_list"
/-- `ItemError` in `options.go`. -/
def ItemError : String := "error"

/-- `FileUpdateChange` in `options.go`. -/
structure FileUpdateChange where
  path : String
  kind : String

/-- `McpContentBlock` in `options.go`. -/
structure McpContentBlock where
  type : String
  text : String
  data : Option Json

/-- `McpToolResult` in `options.go`. -/
structure McpToolResult where
  content : List McpContentBlock
  structuredContent : Option Json

/-- `McpToolError` in `options.go`. -/
structure McpToolError where
  message : String

/-- `TodoItem` in `options.go`. -/
structure TodoItem where
  text : String
  completed : Bool

/-- The `ThreadItem` interface of `options.go` as a closed tagged union:
one variant per concrete item struct, plus `unknown` for `UnknownItem`. -/
inductive ThreadItem where
  | agentMessage (id type text : String)
  | reasoning (id type text : String)
  | commandExecution (id type command aggregatedOutput : String)
      (exitCode : Option Int) (status : String)
  | fileChange (id type : String) (changes : List FileUpdateChange) (status : String)
  | mcpToolCall (id type server tool : String) (arguments : Option Json)
      (result : Option McpToolResult) (error : Option McpToolError) (status : String)
  | webSearch (id type query : String)
  | todoList (id type : String) (items : List TodoItem)
  | errorItem (id type message : String)
  | unknown (itemType : String) (raw : Json)

/-- `json.Unmarshal(data, &AgentMessageItem{})`. -/
def decodeAgentMessageItem (data : Json) : Except String ThreadItem := do
  let fs ← asObjFields data "AgentMessageItem"
  let id ← strField fs "id"
  let ty ← strField fs "type"
  let text ← strField fs "text"
  .ok (.agentMessage id ty text)

/-- `json.Unmarshal(data, &ReasoningItem{})`. -/
def decodeReasoningItem (data : Json) : Except String ThreadItem := do
  let fs ← asObjFields data "ReasoningItem"
  let id ← strField fs "id"
  let ty ← strField fs "type"
  let text ← strField fs "text"
  .ok (.reasoning id ty text)

/-- `json.Unmarshal(data, &CommandExecutionItem{})`. -/
def decodeCommandExecutionItem (data : Json) : Except String ThreadItem := do
  let fs ← asObjFields data "CommandExecutionItem"
  let id ← strField fs "id"
  let ty ← strField fs "type"
  let command ← strField fs "command"
  let aggregated ← strField fs "aggregated_output"
  let exitCode ← optIntField fs "exit_code"
  let status ← strField fs "status"
  .ok (.commandExecution id ty command aggregated exitCode status)

/-- `json.Unmarshal` of one `FileUpdateChange` element. -/
def decodeFileUpdateChange (j : Json) : Except String FileUpdateChange := do
  let fs ← asObjFields j "FileUpdateChange"
  let path ← strField fs "path"
  let kind ← strField fs "kind"
  .ok ⟨path, kind⟩

/-- `json.Unmarshal(data, &FileChangeItem{})`. -/
def decodeFileChangeItem (data : Json) : Except String ThreadItem := do
  let fs ← asObjFields data "FileChangeItem"
  let id ← strField fs "id"
  let ty ← strField fs "type"
  let changesRaw ← arrField fs "changes"
  let changes ← changesRaw.mapM decodeFileUpdateChange
  let status ← strField fs "status"
  .ok (.fileChange id ty changes status)

/-- `json.Unmarshal` of one `McpContentBlock` element. -/
def decodeMcpContentBlock (j : Json) : Except String McpContentBlock := do
  let fs ← asObjFields j "McpContentBlock"
  let ty ← strField fs "type"
  let text ← strField fs "text"
  .ok ⟨ty, text, rawField fs "data"⟩

/-- `json.Unmarshal` of an `McpToolResult`. -/
def decodeMcpToolResult (j : Json) : Except String McpToolResult := do
  let fs ← asObjFields j "McpToolResult"
  let contentRaw ← arrField fs "content"
  let content ← contentRaw.mapM decodeMcpContentBlock
  .ok ⟨content, rawField fs "structured_content"⟩

/-- `json.Unmarshal` of an `McpToolError`. -/
def decodeMcpToolError (j : Json) : Except String McpToolError := do
  let fs ← asObjFields j "McpToolError"
  let message ← strField fs "message"
  .ok ⟨message⟩

/-- `json.Unmarshal(data, &McpToolCallItem{})`. -/
def decodeMcpToolCallItem (data : Json) : Except String ThreadItem := do
  let fs ← asObjFields data "McpToolCallItem"
  let id ← strField fs "id"
  let ty ← strField fs "type"
  let server ← strField fs "server"
  let tool ← strField fs "tool"
  let result ← optStructField fs "result" decodeMcpToolResult
  let err ← optStructField fs "error" decodeMcpToolError
  let status ← strField fs "status"
  .ok (.mcpToolCall id ty server tool (rawField fs "arguments") result err status)

/-- `json.Unmarshal(data, &WebSearchItem{})`. -/
def decodeWebSearchItem (data : Json) : Except String ThreadItem := do
  let fs ← asObjFields data "WebSearchItem"
  let id ← strField fs "id"
  let ty ← strField fs "type"
  let query ← strField fs "query"
  .ok (.webSearch id ty query)

/-- `json.Unmarshal` of one `TodoItem` element. -/
def decodeTodoItem (j : Json) : Except String TodoItem := do
  let fs ← asObjFields j "TodoItem"
  let text ← strField fs "text"
  let completed ← boolField fs "completed"
  .ok ⟨text, completed⟩

/-- `json.Unmarshal(data, &TodoListItem{})`. -/
def decodeTodoListItem (data : Json) : Except String ThreadItem := do
  let fs ← asObjFields data "TodoListItem"
  let id ← strField fs "id"
  let ty ← strField fs "type"
  let itemsRaw ← arrField fs "items"
  let items ← itemsRaw.mapM decodeTodoItem
  .ok (.todoList id ty items)

/-- `json.Unmarshal(data, &ErrorItem{})`. -/
def decodeErrorItem (data : Json) : Except String ThreadItem := do
  let fs ← asObjFields data "ErrorItem"
  let id ← strField fs "id"
  let ty ← strField fs "type"
  let message ← strField fs "message"
  .ok (.errorItem id ty message)

/-- Reading only the `type` discriminator of an item payload
(the anonymous `discriminator` struct inside `unmarshalThreadItem`). -/
def decodeDiscriminator (j : Json) : Except String String :=
  match j with
  | .obj fs => strField fs "type"
  | .null => .ok ""
  | _ => .error "cannot unmarshal non-object into discriminator"

/-- `unmarshalThreadItem` of `options.go`: two-phase decode — first the
discriminator, then the full payload according to it; an empty discriminator
is an error, an unrecognized one yields `UnknownItem` carrying the raw
payload. The Go `switch` is rendered as the equivalent if-chain. -/
def unmarshalThreadItem (data : Json) : Except String ThreadItem := do
  let disc ← decodeDiscriminator data
  if disc = ItemAgentMessage then decodeAgentMessageItem data
  else if disc = ItemReasoning then decodeReasoningItem data
  else if disc = ItemCommandExecution then decodeCommandExecutionItem data
  else if disc = ItemFileChange then decodeFileChangeItem data
  else if disc = ItemMcpToolCall then decodeMcpToolCallItem data
  else if disc = ItemWebSearch then decodeWebSearchItem data
  else if disc = ItemTodoList then decodeTodoListItem data
  else if disc = ItemError then decodeErrorItem data
  else if disc = "" then .error "thread item missing type discriminator"
  else .ok (.unknown disc data)

/-! ### Event model (`events` source file) -/

/-- `EventThreadStarted`. -/
def EventThreadStarted : String := "thread.started"
/-- `EventTurnStarted`. -/
def EventTurnStarted : String := "turn.started"
/-- `EventTurnCompleted`. -/
def EventTurnCompleted : String := "turn.completed"
/-- `EventTurnFailed`. -/
def EventTurnFailed : String := "turn.failed"
/-- `EventItemStarted`. -/
def EventItemStarted : String := "item.started"
/-- `EventItemUpdated`. -/
def EventItemUpdated : String := "item.updated"
/-- `EventItemCompleted`. -/
def EventItemCompleted : String := "item.completed"

/-- `Usage`: token counters reported on `turn.completed`. -/
structure Usage where
  inputTokens : Int
  cachedInputTokens : Int
  outputTokens : Int

/-- `ThreadError`: the failure payload of a `turn.failed` event. -/
structure ThreadError where
  message : String

/-- `ThreadEvent`: one decoded line of CLI output. -/
structure ThreadEvent where
  type : String
  threadId : String
  usage : Option Usage
  error : Option ThreadError
  item : Option ThreadItem
  message : String

/-- `json.Unmarshal` of a `Usage` payload. -/
def decodeUsage (j : Json) : Except String Usage := do
  let fs ← asObjFields j "Usage"
  let input ← intField fs "input_tokens"
  let cached ← intField fs "cached_input_tokens"
  let output ← intField fs "output_tokens"
  .ok ⟨input, cached, output⟩

/-- `json.Unmarshal` of a `ThreadError` payload. -/
def decodeThreadError (j : Json) : Except String ThreadError := do
  let fs ← asObjFields j "ThreadError"
  let message ← strField fs "message"
  .ok ⟨message⟩

/-- The deferred-item part of `ThreadEvent.UnmarshalJSON`: a present `item`
field (`len(aux.Item) > 0`) is decoded with `unmarshalThreadItem`, and a
failure is prefixed with `"decode thread item: "` (the `fmt.Errorf` wrap in
the source); an absent field leaves the item `nil`. -/
def itemField (fs : List (String × Json)) : Except String (Option ThreadItem) :=
  match lookupField fs "item" with
  | none => Except.ok none
  | some rawItem =>
    match unmarshalThreadItem rawItem with
    | .ok it => Except.ok (some it)
    | .error e => Except.error ("decode thread item: " ++ e)

/-- `ThreadEvent.UnmarshalJSON`: decode the flat fields, then handle the
raw `item` payload via `itemField`. -/
def decodeThreadEvent (j : Json) : Except String ThreadEvent := do
  let fs ← asObjFields j "ThreadEvent"
  let ty ← strField fs "type"
  let tid ← strField fs "thread_id"
  let usage ← optStructField fs "usage" decodeUsage
  let terr ← optStructField fs "error" decodeThreadError
  let msg ← strField fs "message"
  let item ← itemField fs
  .ok ⟨ty, tid, usage, terr, item, msg⟩

/-! ### Error values

Go `error` values that flow through `exec.go` and the stream/aggregation
layer, with just enough structure for `errors.Is` chains: `wrapped` models a
`fmt.Errorf("...%w...")` result (the inner error is the `%w` argument),
`errorString` models `errors.New` / non-wrapping formats, `canceled` is the
`context.Canceled` sentinel, and `execFailed` is `*ErrExecFailed` (whose
`Unwrap` yields the `exec.ExitError` cause, never `context.Canceled`). -/
inductive GoError where
  | canceled
  | execFailed (exitCode : Int) (stderr : String)
  | errorString (msg : String)
  | wrapped (msg : String) (inner : GoError)
deriving DecidableEq

/-- `err.Error()`: the message of a Go error value. -/
def errMessage : GoError → String
  | .canceled => "context canceled"
  | .execFailed code stderr =>
    if stderr ≠ "" then s!"codex exec exited with code {code}: {stderr}"
    else s!"codex exec exited with code {code}"
  | .errorString msg => msg
  | .wrapped msg _ => msg

/-- `errors.Is(e, target)` under the model's structural equality: match the
error itself, else follow the `%w` unwrap chain. -/
def goErrorIs (e target : GoError) : Bool :=
  match e with
  | .wrapped msg inner => (GoError.wrapped msg inner == target) || goErrorIs inner target
  | other => other == target

/-- `errors.Is(e, context.Canceled)`. -/
def isCanceled (e : GoError) : Bool := goErrorIs e .canceled

/-! ### `waitFn` of `exec.go` (the process-await result) -/

/-- `strings.TrimSpace`: drop leading and trailing whitespace (modelled on
the character list; the model recognises ASCII whitespace). -/
def trimSpace (s : String) : String :=
  ⟨((s.data.dropWhile Char.isWhitespace).reverse.dropWhile Char.isWhitespace).reverse⟩

/-- Outcome of `cmd.Wait()`: clean exit, non-zero exit (`*exec.ExitError`
with its exit code), or a non-exit error. -/
inductive WaitOutcome where
  | success
  | exited (code : Int)
  | otherErr (msg : String)

/-- The `waitFn` closure built in `Exec.Run` (`exec.go`): wait for the
process, then surface a stdin-write failure, then — with stderr now fully
drained into `stderrBuf` — turn a non-zero exit into `ErrExecFailed` with
the trimmed stderr text.  `writeErr` is the outcome of the stdin-writing
goroutine and `stderrBuf` the complete captured stderr. -/
def waitFn (procErr : WaitOutcome) (writeErr : Option String) (stderrBuf : String) :
    Option GoError :=
  let err := procErr
  match writeErr with
  | some we => some (.wrapped ("write to codex stdin: " ++ we) (.errorString we))
  | none =>
    match err with
    | .success => none
    | .exited code => some (.execFailed code (trimSpace stderrBuf))
    | .otherErr msg => some (.wrapped ("codex exec failed: " ++ msg) (.errorString msg))

/-! ### The background reading loop of `runStreamedInternal` -/

/-- `Thread.setID`: an empty identifier is ignored, any other overwrites. -/
def setID (cur new : String) : String :=
  if new = "" then cur else new

/-- One line handed to the reading loop, as `bufio.Reader.ReadBytes` and
`bytes.TrimSpace` see it: blank after trimming, syntactically malformed
JSON (with the parser's message), or a parsed JSON value. -/
inductive LineInput where
  | blank
  | malformed (msg : String)
  | valid (j : Json)

/-- What the background goroutine has produced when its reading loop ends:
the events sent on the channel in order, the thread id after the loop's
`setID` calls, and the loop's own terminal error (`runErr`), if any. -/
structure StreamResult where
  events : List ThreadEvent
  threadId : String
  runErr : Option GoError

/-- The reading loop of `runStreamedInternal` (context never cancelled,
reads succeeding until end of input): skip blank lines; on a line that fails
to decode set `runErr` to the `"parse codex event: "`-wrapped error and stop
(the rest of the input is not read); otherwise update the thread id for a
`thread.started` event carrying a non-empty id, then send the event. -/
def processLines (id : String) : List LineInput → StreamResult
  | [] => ⟨[], id, none⟩
  | .blank :: rest => processLines id rest
  | .malformed msg :: _ =>
    ⟨[], id, some (.wrapped ("parse codex event: " ++ msg) (.errorString msg))⟩
  | .valid j :: rest =>
    match decodeThreadEvent j with
    | .error e =>
      ⟨[], id, some (.wrapped ("parse codex event: " ++ e) (.errorString e))⟩
    | .ok ev =>
      let id2 := if ev.type = EventThreadStarted ∧ ev.threadId ≠ "" then setID id ev.threadId else id
      let r := processLines id2 rest
      ⟨ev :: r.events, r.threadId, r.runErr⟩

/-- The final reconciliation at the end of the goroutine (lines 237–244 of
the thread source): `runErr` nil → take `waitErr`; both non-nil and not
`errors.Is`-related → wrap `runErr` with the wait error appended to the
message; otherwise keep `runErr`. -/
def reconcileErrors (runErr waitErr : Option GoError) : Option GoError :=
  match runErr with
  | none => waitErr
  | some re =>
    match waitErr with
    | none => some re
    | some we =>
      if goErrorIs re we then some re
      else some (.wrapped (errMessage re ++ "; wait error: " ++ errMessage we) re)

/-- The single value published on `errCh` (what `StreamedTurn.Wait` then
returns to every caller): the loop's error reconciled with the process's
await error. -/
def streamWaitResult (id : String) (lines : List LineInput)
    (procWaitErr : Option GoError) : Option GoError :=
  reconcileErrors (processLines id lines).runErr procWaitErr

/-! ### `Thread.Run`'s aggregation loop -/

/-- `Turn`: the aggregated result of one exchange. -/
structure Turn where
  items : List ThreadItem
  finalResponse : String
  usage : Option Usage

/-- The local accumulator variables of `Thread.Run`. -/
structure RunState where
  items : List ThreadItem
  finalResponse : String
  usage : Option Usage
  turnFailure : Option String

/-- The failure message recorded from a `turn.failed` event: the event's
error message, or `"turn failed"` when the event carried none. -/
def failMsg (e : ThreadEvent) : String :=
  match e.error with
  | some te => te.message
  | none => "turn failed"

/-- The `if msg, ok := event.Item.(*AgentMessageItem)` type switch of
`Thread.Run`: an agent message's text, any other item keeps the running
final response. -/
def agentText (item : ThreadItem) (current : String) : String :=
  match item with
  | .agentMessage _ _ text => text
  | _ => current

/-- The `for event := range streamed.Events` loop of `Thread.Run`: on
`item.completed` record the item (and, for an agent message, overwrite the
final response); on `turn.completed` capture the usage; on `turn.failed`
record the failure message, cancel, and break out of the loop (remaining
events are not consumed); every other event type is ignored.  The Go
`switch` is rendered as the equivalent if-chain. -/
def runLoop : List ThreadEvent → RunState → RunState
  | [], s => s
  | e :: rest, s =>
    if e.type = EventItemCompleted then
      runLoop rest
        (match e.item with
         | some item =>
           { s with
             finalResponse := agentText item s.finalResponse,
             items := s.items ++ [item] }
         | none => s)
    else if e.type = EventTurnCompleted then
      runLoop rest { s with usage := e.usage }
    else if e.type = EventTurnFailed then
      { s with turnFailure := some (failMsg e) }
    else
      runLoop rest s

/-- `Thread.Run` after the stream has been obtained: drain the events, call
`Wait` (its result is the `waitErr` argument), and select the outcome — a
recorded turn failure is superseded by a non-`context.Canceled` stream
error, otherwise becomes `errors.New` of its message; with no turn failure a
stream error is returned as-is, else the aggregated `Turn`. -/
def threadRun (events : List ThreadEvent) (waitErr : Option GoError) :
    Except GoError Turn :=
  let s := runLoop events ⟨[], "", none, none⟩
  match s.turnFailure with
  | some msg =>
    match waitErr with
    | some we =>
      if ¬ isCanceled we then .error we
      else .error (.errorString msg)
    | none => .error (.errorString msg)
  | none =>
    match waitErr with
    | some we => .error we
    | none => .ok ⟨s.items, s.finalResponse, s.usage⟩

/-! ### Spec-side characterisations

The following definitions transcribe what the specification *says* the
code does; the refinement theorems below compare them with the
source-derived definitions above. -/

/-- Spec: "the sequence of events delivered to the consumer equals the
decoding of the stream's non-blank lines, in the exact order they appear,
up to (and excluding) the first line that fails to decode". -/
def specEvents : List LineInput → List ThreadEvent
  | [] => []
  | .blank :: rest => specEvents rest
  | .malformed _ :: _ => []
  | .valid j :: rest =>
    match decodeThreadEvent j with
    | .error _ => []
    | .ok ev => ev :: specEvents rest

/-- Spec: the items of the `item.completed` events, in order of occurrence. -/
def specItems (events : List ThreadEvent) : List ThreadItem :=
  events.filterMap fun e => if e.type = EventItemCompleted then e.item else none

/-- Spec: the text of the last completed agent-message item, folded from a
starting value. -/
def specFinalResponseFrom (acc : String) (events : List ThreadEvent) : String :=
  events.foldl
    (fun acc e =>
      if e.type = EventItemCompleted then
        match e.item with
        | some item => agentText item acc
        | none => acc
      else acc)
    acc

/-- Spec: the text of the last completed agent-message item, or empty. -/
def specFinalResponse (events : List ThreadEvent) : String :=
  specFinalResponseFrom "" events

/-- Spec: the usage of the last `turn.completed` event, folded from a
starting value. -/
def specUsageFrom (acc : Option Usage) (events : List ThreadEvent) : Option Usage :=
  events.foldl (fun acc e => if e.type = EventTurnCompleted then e.usage else acc) acc

/-- Spec: the usage of the last `turn.completed` event, or `nil`. -/
def specUsage (events : List ThreadEvent) : Option Usage :=
  specUsageFrom none events

/-- The known item discriminators (the cases of `unmarshalThreadItem`'s
switch). -/
def knownItemTypes : List String :=
  [ItemAgentMessage, ItemReasoning, ItemCommandExecution, ItemFileChange,
   ItemMcpToolCall, ItemWebSearch, ItemTodoList, ItemError]

/-! ### Shared helper lemmas -/

theorem bind_ok {α β : Type} (a : α) (f : α → Except String β) :
    (Except.ok a >>= f) = f a := rfl

theorem bind_error {α β : Type} (e : String) (f : α → Except String β) :
    ((Except.error e : Except String α) >>= f) = .error e := rfl

theorem goErrorIs_self (e : GoError) : goErrorIs e e = true := by
  cases e <;> simp [goErrorIs]

/-- An item payload whose discriminator reads back empty is rejected by
`unmarshalThreadItem`. -/
theorem unmarshalThreadItem_empty_disc {ij : Json}
    (h : decodeDiscriminator ij = .ok "") :
    unmarshalThreadItem ij = .error "thread item missing type discriminator" := by
  unfold unmarshalThreadItem
  rw [h, bind_ok]
  rfl

/-- Unfolding `itemField` when the `item` field is present. -/
theorem itemField_lookup {fs : List (String × Json)} {ij : Json}
    (hitem : lookupField fs "item" = some ij) :
    itemField fs =
      match unmarshalThreadItem ij with
      | .ok it => Except.ok (some it)
      | .error e => Except.error ("decode thread item: " ++ e) := by
  unfold itemField
  rw [hitem]

/-- If an event payload carries an `item` field, successful event decoding
requires the item payload itself to decode. -/
theorem decodeThreadEvent_ok_item {fs : List (String × Json)} {ij : Json}
    {ev : ThreadEvent} (hitem : lookupField fs "item" = some ij)
    (hok : decodeThreadEvent (Json.obj fs) = .ok ev) :
    ∃ it, unmarshalThreadItem ij = .ok it := by
  unfold decodeThreadEvent at hok
  rw [show asObjFields (Json.obj fs) "ThreadEvent" = .ok fs from rfl, bind_ok] at hok
  cases h1 : strField fs "type" with
  | error e => rw [h1, bind_error] at hok; exact Except.noConfusion hok
  | ok ty =>
  rw [h1, bind_ok] at hok
  cases h2 : strField fs "thread_id" with
  | error e => rw [h2, bind_error] at hok; exact Except.noConfusion hok
  | ok tid =>
  rw [h2, bind_ok] at hok
  cases h3 : optStructField fs "usage" decodeUsage with
  | error e => rw [h3, bind_error] at hok; exact Except.noConfusion hok
  | ok usage =>
  rw [h3, bind_ok] at hok
  cases h4 : optStructField fs "error" decodeThreadError with
  | error e => rw [h4, bind_error] at hok; exact Except.noConfusion hok
  | ok terr =>
  rw [h4, bind_ok] at hok
  cases h5 : strField fs "message" with
  | error e => rw [h5, bind_error] at hok; exact Except.noConfusion hok
  | ok msg =>
  rw [h5, bind_ok, itemField_lookup hitem] at hok
  cases h6 : unmarshalThreadItem ij with
  | ok it => exact ⟨it, rfl⟩
  | error e => rw [h6] at hok; simp [bind_error] at hok

/-- Draining `runLoop` over a turn-failure-free event list is the fold the
spec describes, started from the current accumulator state. -/
theorem runLoop_no_failed (events : List ThreadEvent) (s : RunState)
    (h : ∀ e ∈ events, e.type ≠ EventTurnFailed) :
    runLoop events s =
      ⟨s.items ++ specItems events, specFinalResponseFrom s.finalResponse events,
        specUsageFrom s.usage events, s.turnFailure⟩ := by
  induction events generalizing s with
  | nil => simp [runLoop, specItems, specFinalResponseFrom, specUsageFrom]
  | cons e rest ih =>
    have he : e.type ≠ EventTurnFailed := h e (List.mem_cons_self e rest)
    have hrest : ∀ x ∈ rest, x.type ≠ EventTurnFailed :=
      fun x hx => h x (List.mem_cons_of_mem e hx)
    by_cases h1 : e.type = EventItemCompleted
    · cases hit : e.item with
      | none =>
        simp [runLoop, h1, hit, ih _ hrest, specItems, specFinalResponseFrom, specUsageFrom,
          EventItemCompleted, EventTurnCompleted, EventTurnFailed]
      | some item =>
        simp [runLoop, h1, hit, ih _ hrest, specItems, specFinalResponseFrom, specUsageFrom,
          EventItemCompleted, EventTurnCompleted, EventTurnFailed]
    · by_cases h2 : e.type = EventTurnCompleted
      · simp [runLoop, h1, h2, ih _ hrest, specItems, specFinalResponseFrom, specUsageFrom,
          EventItemCompleted, EventTurnCompleted, EventTurnFailed]
      · simp [runLoop, h1, h2, he, ih _ hrest, specItems, specFinalResponseFrom, specUsageFrom]

/-- `runLoop` does not stop early on a prefix free of `turn.failed`. -/
theorem runLoop_append (pre l : List ThreadEvent) (s : RunState)
    (h : ∀ e ∈ pre, e.type ≠ EventTurnFailed) :
    runLoop (pre ++ l) s = runLoop l (runLoop pre s) := by
  induction pre generalizing s with
  | nil => rfl
  | cons e rest ih =>
    have he : e.type ≠ EventTurnFailed := h e (List.mem_cons_self e rest)
    have hrest : ∀ x ∈ rest, x.type ≠ EventTurnFailed :=
      fun x hx => h x (List.mem_cons_of_mem e hx)
    by_cases h1 : e.type = EventItemCompleted
    · simp [runLoop, h1, ih _ hrest, EventItemCompleted, EventTurnCompleted, EventTurnFailed]
    · by_cases h2 : e.type = EventTurnCompleted
      · simp [runLoop, h1, h2, ih _ hrest, EventItemCompleted, EventTurnCompleted, EventTurnFailed]
      · simp [runLoop, h1, h2, he, ih _ hrest]

/-! ### Claim theorems -/

/-- C2, counterexample: the claim says a non-zero exit takes precedence over
a stdin-write failure, but with exit code 2 (stderr `"boom"`) and a failed
stdin write, `waitFn` returns the write error, not `ExecFailedError`. -/
theorem claim_c2_counterexample :
    waitFn (.exited 2) (some "broken pipe") "boom" =
      some (.wrapped "write to codex stdin: broken pipe" (.errorString "broken pipe")) ∧
    waitFn (.exited 2) (some "broken pipe") "boom" ≠
      some (.execFailed 2 "boom") := by
  refine ⟨rfl, ?_⟩
  decide

/-- C2 (amended): `waitFn`'s result is determined in this order — if the
stdin write failed, that write error is returned (even when the process also
exited non-zero); else a non-zero exit yields `ExecFailedError` with the
exit code and the trimmed captured stderr; else a non-exit wait error is
wrapped; else the result is nil. -/
theorem claim_c2_await_result_order (c : Int) (s we : String) :
    waitFn (.exited c) (some we) s =
      some (.wrapped ("write to codex stdin: " ++ we) (.errorString we)) ∧
    waitFn (.exited c) none s = some (.execFailed c (trimSpace s)) ∧
    waitFn .success (some we) s =
      some (.wrapped ("write to codex stdin: " ++ we) (.errorString we)) ∧
    waitFn .success none s = none ∧
    waitFn (.otherErr we) none s =
      some (.wrapped ("codex exec failed: " ++ we) (.errorString we)) :=
  ⟨rfl, rfl, rfl, rfl, rfl⟩

/-- C9, counterexample: the claim says the `Stderr` field equals the full
captured stderr text; with captured stderr `"boom\n"` the field is the
trimmed `"boom"`, not `"boom\n"`. -/
theorem claim_c9_counterexample :
    waitFn (.exited 2) none "boom\n" = some (.execFailed 2 "boom") ∧
    waitFn (.exited 2) none "boom\n" ≠ some (.execFailed 2 "boom\n") := by
  refine ⟨rfl, ?_⟩
  decide

/-- C9 (amended): for a process that exits non-zero (with no stdin-write
failure), the `ExecFailedError` returned by `Await` carries the process's
exit code and the complete captured stderr text trimmed of leading and
trailing whitespace; the model hands `waitFn` the fully-drained stderr
buffer, reflecting that capture completes before the error is built. -/
theorem claim_c9_exec_failed_fields (c : Int) (stderrBuf : String) :
    waitFn (.exited c) none stderrBuf = some (.execFailed c (trimSpace stderrBuf)) := rfl

/-- C8, counterexample: the claim says the identity is set only by the first
`thread.started` event, but after `thread.started` events carrying `"a"`
then `"b"`, the stored identity is `"b"`, not `"a"`. -/
theorem claim_c8_counterexample :
    (processLines ""
      [.valid (.obj [("type", .str "thread.started"), ("thread_id", .str "a")]),
       .valid (.obj [("type", .str "thread.started"), ("thread_id", .str "b")])]).threadId
      = "b" ∧
    ("b" : String) ≠ "a" := by
  refine ⟨rfl, ?_⟩
  decide

/-- C8 (amended): every `thread.started` event carrying a non-empty
identifier writes the session identity (last writer wins), so after two
`thread.started` events with non-empty identifiers, `ID()` returns the
identifier carried by the second. -/
theorem claim_c8_last_writer_wins (id a b : String) (_ha : a ≠ "") (hb : b ≠ "") :
    (processLines id
      [.valid (.obj [("type", .str "thread.started"), ("thread_id", .str a)]),
       .valid (.obj [("type", .str "thread.started"), ("thread_id", .str b)])]).threadId
      = b := by
  have hdec : ∀ x : String,
      decodeThreadEvent (.obj [("type", .str "thread.started"), ("thread_id", .str x)]) =
        .ok ⟨"thread.started", x, none, none, none, ""⟩ := fun x => rfl
  simp [processLines, hdec, setID, EventThreadStarted, hb]

/-- C8, witness for the amended theorem at concrete identifiers. -/
theorem claim_c8_witness :
    (processLines "seed"
      [.valid (.obj [("type", .str "thread.started"), ("thread_id", .str "t1")]),
       .valid (.obj [("type", .str "thread.started"), ("thread_id", .str "t2")])]).threadId
      = "t2" :=
  claim_c8_last_writer_wins "seed" "t1" "t2" (by decide) (by decide)

/-- C3, counterexample: the claim says a valid-JSON line whose top-level
event object lacks a `type` field is a terminal decode error; in fact `{}`
decodes to an event with empty type, no stream error is recorded, and the
following line is still read and delivered. -/
theorem claim_c3_counterexample :
    decodeThreadEvent (.obj []) = .ok ⟨"", "", none, none, none, ""⟩ ∧
    (processLines ""
      [.valid (.obj []), .valid (.obj [("type", .str "turn.started")])]).runErr = none ∧
    (processLines ""
      [.valid (.obj []), .valid (.obj [("type", .str "turn.started")])]).events.length = 2 :=
  ⟨rfl, rfl, rfl⟩

/-- C3 (amended): an event line whose `item` payload has an absent or empty
`type` discriminator fails to decode, and that failure is terminal — the
line produces no event, `runErr` is set, and the remainder of the input is
not read (the result does not depend on the lines after it); a top-level
event with an absent or empty `type`, by contrast, decodes successfully. -/
theorem claim_c3_item_missing_discriminator (fs : List (String × Json)) (ij : Json)
    (id : String) (rest : List LineInput)
    (hitem : lookupField fs "item" = some ij)
    (hdisc : decodeDiscriminator ij = .ok "") :
    (∀ ev, decodeThreadEvent (.obj fs) ≠ .ok ev) ∧
    (processLines id (.valid (.obj fs) :: rest)).events = [] ∧
    (processLines id (.valid (.obj fs) :: rest)).runErr.isSome = true ∧
    processLines id (.valid (.obj fs) :: rest) = processLines id [.valid (.obj fs)] := by
  have hbad := unmarshalThreadItem_empty_disc hdisc
  have hev : ∀ ev, decodeThreadEvent (.obj fs) ≠ .ok ev := by
    intro ev hok
    obtain ⟨it, hit⟩ := decodeThreadEvent_ok_item hitem hok
    rw [hbad] at hit
    exact Except.noConfusion hit
  refine ⟨hev, ?_⟩
  cases hd : decodeThreadEvent (.obj fs) with
  | ok ev => exact absurd hd (hev ev)
  | error e => simp [processLines, hd]

/-- C3, witness for the amended theorem: an `item.completed` event whose
item payload has no `type` field stops the stream before a following
well-formed line. -/
theorem claim_c3_witness :
    (processLines ""
      [.valid (.obj [("type", .str "item.completed"), ("item", .obj [("id", .str "x")])]),
       .valid (.obj [("type", .str "turn.started")])]).events = [] ∧
    (processLines ""
      [.valid (.obj [("type", .str "item.completed"), ("item", .obj [("id", .str "x")])]),
       .valid (.obj [("type", .str "turn.started")])]).runErr.isSome = true ∧
    processLines ""
      [.valid (.obj [("type", .str "item.completed"), ("item", .obj [("id", .str "x")])]),
       .valid (.obj [("type", .str "turn.started")])] =
      processLines ""
        [.valid (.obj [("type", .str "item.completed"), ("item", .obj [("id", .str "x")])])] :=
  (claim_c3_item_missing_discriminator
    [("type", .str "item.completed"), ("item", .obj [("id", .str "x")])]
    (.obj [("id", .str "x")]) ""
    [.valid (.obj [("type", .str "turn.started")])] (by rfl) (by rfl)).2

/-- C4: an item payload whose discriminator is non-empty and outside the
known set decodes successfully into the `UnknownItem` variant carrying the
original discriminator string and the original raw payload; no decode error
is possible for such inputs. -/
theorem claim_c4_unknown_item (data : Json) (disc : String)
    (hdisc : decodeDiscriminator data = .ok disc)
    (hne : disc ∉ knownItemTypes) (hnonempty : disc ≠ "") :
    unmarshalThreadItem data = .ok (.unknown disc data) := by
  simp only [knownItemTypes, List.mem_cons, List.not_mem_nil, or_false, not_or] at hne
  obtain ⟨h1, h2, h3, h4, h5, h6, h7, h8⟩ := hne
  unfold unmarshalThreadItem
  rw [hdisc, bind_ok, if_neg h1, if_neg h2, if_neg h3, if_neg h4, if_neg h5,
    if_neg h6, if_neg h7, if_neg h8, if_neg hnonempty]

/-- C4, witness: a payload with the unrecognized discriminator
`"fancy_new"` decodes to the unknown variant preserving it and the raw
payload. -/
theorem claim_c4_witness :
    unmarshalThreadItem (.obj [("type", .str "fancy_new"), ("id", .str "x")]) =
      .ok (.unknown "fancy_new" (.obj [("type", .str "fancy_new"), ("id", .str "x")])) :=
  claim_c4_unknown_item (.obj [("type", .str "fancy_new"), ("id", .str "x")])
    "fancy_new" (by rfl) (by decide) (by decide)

/-- C5: the events delivered to the consumer are exactly the decodings of
the non-blank lines, in input order, up to (and excluding) the first line
that fails to decode — and in particular three well-formed lines followed
by a clean exit yield exactly those three events in order, with `Wait`
returning nil. -/
theorem claim_c5_event_order :
    (∀ (id : String) (lines : List LineInput),
      (processLines id lines).events = specEvents lines) ∧
    (processLines ""
        [.valid (.obj [("type", .str "line1")]), .valid (.obj [("type", .str "line2")]),
         .valid (.obj [("type", .str "line3")])]).events =
      [⟨"line1", "", none, none, none, ""⟩, ⟨"line2", "", none, none, none, ""⟩,
       ⟨"line3", "", none, none, none, ""⟩] ∧
    streamWaitResult ""
      [.valid (.obj [("type", .str "line1")]), .valid (.obj [("type", .str "line2")]),
       .valid (.obj [("type", .str "line3")])] none = none := by
  refine ⟨?_, rfl, rfl⟩
  intro id lines
  induction lines generalizing id with
  | nil => rfl
  | cons l rest ih =>
    cases l with
    | blank => simp [processLines, specEvents, ih]
    | malformed msg => simp [processLines, specEvents]
    | valid j =>
      cases hd : decodeThreadEvent j with
      | error e => simp [processLines, specEvents, hd]
      | ok ev => simp [processLines, specEvents, hd, ih]

/-- C10: `setID` with an empty string is a no-op; consequently, for every
input, the final identity either is the initial one or is a non-empty
identifier explicitly written by a delivered `thread.started` event — and a
non-empty initial identity never becomes empty. -/
theorem claim_c10_id_never_cleared :
    (∀ cur : String, setID cur "" = cur) ∧
    (∀ (id : String) (lines : List LineInput),
      ((processLines id lines).threadId = id ∨
        ((processLines id lines).threadId ≠ "" ∧
          ∃ ev ∈ (processLines id lines).events,
            ev.type = EventThreadStarted ∧ ev.threadId = (processLines id lines).threadId)) ∧
      (id ≠ "" → (processLines id lines).threadId ≠ "")) := by
  refine ⟨fun cur => rfl, ?_⟩
  intro id lines
  induction lines generalizing id with
  | nil => exact ⟨Or.inl rfl, fun h => h⟩
  | cons l rest ih =>
    cases l with
    | blank => simpa [processLines] using ih id
    | malformed msg => exact ⟨Or.inl rfl, fun h => h⟩
    | valid j =>
      cases hd : decodeThreadEvent j with
      | error e =>
        constructor
        · exact Or.inl (by simp [processLines, hd])
        · intro h
          simpa [processLines, hd] using h
      | ok ev =>
        by_cases hcond : ev.type = EventThreadStarted ∧ ev.threadId ≠ ""
        · have hset : setID id ev.threadId = ev.threadId := if_neg hcond.2
          have ihr := ih ev.threadId
          simp only [processLines, hd, if_pos hcond, hset]
          refine ⟨?_, fun _ => ihr.2 hcond.2⟩
          rcases ihr.1 with heq | ⟨hne, x, hxmem, hxty, hxid⟩
          · exact Or.inr ⟨by rw [heq]; exact hcond.2, ev,
              List.mem_cons_self ev _, hcond.1, heq.symm⟩
          · exact Or.inr ⟨hne, x, List.mem_cons_of_mem ev hxmem, hxty, hxid⟩
        · have ihr := ih id
          simp only [processLines, hd, if_neg hcond]
          refine ⟨?_, ihr.2⟩
          rcases ihr.1 with heq | ⟨hne, x, hxmem, hxty, hxid⟩
          · exact Or.inl heq
          · exact Or.inr ⟨hne, x, List.mem_cons_of_mem ev hxmem, hxty, hxid⟩

/-- C10, witness: with a pre-seeded identity and one `thread.started` event
carrying `"x1"`, the instantiated invariants hold. -/
theorem claim_c10_witness :
    setID "q" "" = "q" ∧
    (processLines "seed0"
      [.valid (.obj [("type", .str "thread.started"), ("thread_id", .str "x1")])]).threadId
      = "x1" ∧
    (processLines "seed0"
      [.valid (.obj [("type", .str "thread.started"), ("thread_id", .str "x1")])]).threadId
      ≠ "" :=
  ⟨claim_c10_id_never_cleared.1 "q", rfl,
   (claim_c10_id_never_cleared.2 "seed0"
     [.valid (.obj [("type", .str "thread.started"), ("thread_id", .str "x1")])]).2
     (by decide)⟩

/-- C6: with no `turn.failed` event and no stream error, `Thread.Run`
aggregates the whole event sequence: `Items` are the items of the
`item.completed` events in order, `FinalResponse` is the text of the last
completed agent message (or empty), and `Usage` is the usage of the last
`turn.completed` event (or nil); since the result is a fold over the entire
list, a `turn.completed` event does not stop consumption of later events. -/
theorem claim_c6_aggregation (events : List ThreadEvent) (waitErr : Option GoError)
    (hnf : ∀ e ∈ events, e.type ≠ EventTurnFailed) (hw : waitErr = none) :
    threadRun events waitErr =
      .ok ⟨specItems events, specFinalResponse events, specUsage events⟩ := by
  subst hw
  unfold threadRun
  rw [runLoop_no_failed events _ hnf]
  simp [specFinalResponse, specUsage]

/-- C6, witness: an agent message, a `turn.completed` with usage, a
reasoning item, and a second agent message aggregate to all three items in
order, the second message's text, and the captured usage. -/
theorem claim_c6_witness :
    threadRun
      [⟨EventItemCompleted, "", none, none,
         some (.agentMessage "i1" "agent_message" "first"), ""⟩,
       ⟨EventTurnCompleted, "", some ⟨7, 2, 5⟩, none, none, ""⟩,
       ⟨EventItemCompleted, "", none, none,
         some (.reasoning "i2" "reasoning" "thinking"), ""⟩,
       ⟨EventItemCompleted, "", none, none,
         some (.agentMessage "i3" "agent_message" "final"), ""⟩] none =
      .ok ⟨[.agentMessage "i1" "agent_message" "first",
            .reasoning "i2" "reasoning" "thinking",
            .agentMessage "i3" "agent_message" "final"], "final", some ⟨7, 2, 5⟩⟩ := by
  have h := claim_c6_aggregation
    [⟨EventItemCompleted, "", none, none,
       some (.agentMessage "i1" "agent_message" "first"), ""⟩,
     ⟨EventTurnCompleted, "", some ⟨7, 2, 5⟩, none, none, ""⟩,
     ⟨EventItemCompleted, "", none, none,
       some (.reasoning "i2" "reasoning" "thinking"), ""⟩,
     ⟨EventItemCompleted, "", none, none,
       some (.agentMessage "i3" "agent_message" "final"), ""⟩] none (by decide) rfl
  exact h.trans (by rfl)

/-- C1: when the aggregation loop records a turn failure (the first
`turn.failed` event, whose message is the event's error message or the
generic `"turn failed"`), `Thread.Run` returns the stream's termination
error when it is present and is not a `context.Canceled` (the cancellation
the aggregator itself triggered), and otherwise an error carrying the
recorded failure message; in both cases no `Turn` value is produced. -/
theorem claim_c1_turn_failure_precedence (pre post : List ThreadEvent) (e : ThreadEvent)
    (waitErr : Option GoError)
    (hpre : ∀ x ∈ pre, x.type ≠ EventTurnFailed) (he : e.type = EventTurnFailed) :
    threadRun (pre ++ e :: post) waitErr =
      .error
        (match waitErr with
         | some we => if isCanceled we then .errorString (failMsg e) else we
         | none => .errorString (failMsg e)) := by
  unfold threadRun
  rw [runLoop_append pre (e :: post) _ hpre]
  have h1 : e.type ≠ EventItemCompleted := by rw [he]; decide
  have h2 : e.type ≠ EventTurnCompleted := by rw [he]; decide
  simp only [runLoop, if_neg h1, if_neg h2, if_pos he]
  cases waitErr with
  | none => rfl
  | some we =>
    by_cases hc : isCanceled we
    · simp [hc]
    · simp [hc]

/-- C1, witness: a `turn.failed` event with message `"kaput"` against a
process-failure wait error yields the wait error; against the self-triggered
cancellation (or no wait error) it yields the recorded message. -/
theorem claim_c1_witness :
    threadRun [⟨EventTurnFailed, "", none, some ⟨"kaput"⟩, none, ""⟩]
        (some (.execFailed 1 "x")) = .error (.execFailed 1 "x") ∧
    threadRun [⟨EventTurnFailed, "", none, none, none, ""⟩] (some .canceled) =
      .error (.errorString "turn failed") ∧
    threadRun [⟨EventTurnFailed, "", none, some ⟨"kaput"⟩, none, ""⟩] none =
      .error (.errorString "kaput") := by
  refine ⟨?_, ?_, ?_⟩
  · exact (claim_c1_turn_failure_precedence [] []
      ⟨EventTurnFailed, "", none, some ⟨"kaput"⟩, none, ""⟩
      (some (.execFailed 1 "x")) (by simp) rfl).trans (by rfl)
  · exact (claim_c1_turn_failure_precedence [] []
      ⟨EventTurnFailed, "", none, none, none, ""⟩
      (some .canceled) (by simp) rfl).trans (by rfl)
  · exact (claim_c1_turn_failure_precedence [] []
      ⟨EventTurnFailed, "", none, some ⟨"kaput"⟩, none, ""⟩
      none (by simp) rfl).trans (by rfl)

/-- C7: the published termination outcome is the await-time error alone when
no read-time error occurred; the read-time error alone when no await-time
error occurred or the two are the same error (`errors.Is`); and otherwise
the read-time error wrapped with the await-time error appended to its
message — the combined error still `errors.Is`-matches the read error, so
the read error wins without the await error being discarded; the published
value is the single reconciliation of the loop error with the await error. -/
theorem claim_c7_error_reconciliation (re we : GoError) :
    reconcileErrors none (some we) = some we ∧
    reconcileErrors none none = none ∧
    reconcileErrors (some re) none = some re ∧
    (goErrorIs re we = true → reconcileErrors (some re) (some we) = some re) ∧
    (goErrorIs re we = false →
      reconcileErrors (some re) (some we) =
        some (.wrapped (errMessage re ++ "; wait error: " ++ errMessage we) re) ∧
      goErrorIs (.wrapped (errMessage re ++ "; wait error: " ++ errMessage we) re) re
        = true) ∧
    (∀ (id : String) (lines : List LineInput) (procWaitErr : Option GoError),
      streamWaitResult id lines procWaitErr =
        reconcileErrors (processLines id lines).runErr procWaitErr) := by
  refine ⟨rfl, rfl, rfl, ?_, ?_, fun id lines p => rfl⟩
  · intro h
    simp [reconcileErrors, h]
  · intro h
    refine ⟨by simp [reconcileErrors, h], ?_⟩
    simp [goErrorIs, goErrorIs_self]

/-- C7, witness: a decode-style read error against a distinct process-exit
await error is wrapped (and still matches the read error); against an
identical await error the read error is returned alone. -/
theorem claim_c7_witness :
    reconcileErrors (some (GoError.errorString "read fail"))
        (some (GoError.execFailed 1 "z")) =
      some (.wrapped (errMessage (GoError.errorString "read fail") ++ "; wait error: " ++
        errMessage (GoError.execFailed 1 "z")) (.errorString "read fail")) ∧
    goErrorIs
      (.wrapped (errMessage (GoError.errorString "read fail") ++ "; wait error: " ++
        errMessage (GoError.execFailed 1 "z")) (.errorString "read fail"))
      (.errorString "read fail") = true ∧
    reconcileErrors (some (GoError.errorString "read fail"))
      (some (GoError.errorString "read fail")) = some (GoError.errorString "read fail") := by
  have h := claim_c7_error_reconciliation (.errorString "read fail") (.execFailed 1 "z")
  have h2 := claim_c7_error_reconciliation (.errorString "read fail")
    (.errorString "read fail")
  have hfalse : goErrorIs (GoError.errorString "read fail") (.execFailed 1 "z") = false := by
    decide
  have htrue : goErrorIs (GoError.errorString "read fail")
      (GoError.errorString "read fail") = true := by decide
  exact ⟨(h.2.2.2.2.1 hfalse).1, (h.2.2.2.2.1 hfalse).2, h2.2.2.2.1 htrue⟩

end CodexSdk
